import Mathlib

/-!
Shallow embedding of the request handlers of `src/app.js` (an Express +
Mongoose blogging application) and proofs about them.

Modelling conventions:
  * A MongoDB document outside a fixed schema is a `Doc`: an association
    list of field names to `Value`s.  Mongoose strips paths that are not
    declared in the schema when a model instance is constructed; this is
    `applySchema`.
  * JavaScript truthiness of a possibly-absent field is `truthy`
    (an absent field, i.e. `undefined`, is falsy).
  * The `Post` schema has a fixed set of fields, so posts are a Lean
    structure.  `createdAt` timestamps are `Nat`.
  * The document store is a list of records; `findOne`/`findById` is
    `List.find?`, `save` of an existing document rewrites the entry with
    the same id, `deleteOne` filters it out.  The blob store (directory
    `public/uploads`) is the list of stored filenames.
  * Each handler is a pure function from the request data and the current
    store to a `Response`, the new store, and the ordered list of
    store/blob side effects it issued (`Effect`), so that ordering claims
    ("delete the old blob only after the save") and "no lookup happened"
    claims are expressible.
  * External collaborators (the bcrypt hash/compare pair) are passed as
    function parameters; the handlers never inspect them.
-/

namespace MananWebsite

/-- A field value of a schemaless document. -/
inductive Value where
  | str (s : String)
  | bool (b : Bool)
deriving DecidableEq, Repr

/-- A document: association list from field name to value. -/
abbrev Doc := List (String × Value)

/-- Field lookup on a document (JavaScript property access; `none` is
`undefined`). -/
def Doc.getField (d : Doc) (k : String) : Option Value :=
  (d.find? (fun p => p.1 = k)).map (fun p => p.2)

/-- JavaScript truthiness of a possibly-absent value: `undefined`, `""` and
`false` are falsy. -/
def truthy : Option Value → Bool
  | none => false
  | some (.str s) => s ≠ ""
  | some (.bool b) => b

/-- Mongoose strips document paths that are not declared in the schema. -/
def applySchema (fields : List String) (d : Doc) : Doc :=
  d.filter (fun p => fields.contains p.1)

/-- The `userSchema` of `app.js`: only `email` and `password` are declared. -/
def userSchemaFields : List String := ["email", "password"]

/-- `new User({...})`: a user document passed through the user schema. -/
def mkUser (d : Doc) : Doc := applySchema userSchemaFields d

/-- A stored user record: store-assigned id plus its document. -/
structure UserRec where
  id : String
  doc : Doc
deriving DecidableEq, Repr

/-- The `postSchema` of `app.js`: all fields are declared, so posts are a
fixed structure.  `createdAt` is a timestamp modelled as `Nat`. -/
structure Post where
  id : String
  title : String
  filename : String
  body : String
  authorId : String
  username : String
  createdAt : Nat
deriving DecidableEq, Repr

/-- The persistent state: the two document collections and the blob store
(the set of filenames present under `public/uploads`). -/
structure Store where
  users : List UserRec
  posts : List Post
  blobs : List String
deriving DecidableEq, Repr

/-- `Post.findById(id)` / `Post.findOne({_id: id})`. -/
def findPostById (posts : List Post) (pid : String) : Option Post :=
  posts.find? (fun p => p.id = pid)

/-- `User.findOne({email})`. -/
def findUserByEmail (users : List UserRec) (email : String) : Option UserRec :=
  users.find? (fun u => u.doc.getField "email" = some (.str email))

/-- `post.save()` on a fetched document: rewrite the stored entry carrying
the same id. -/
def savePostById (posts : List Post) (p2 : Post) : List Post :=
  posts.map (fun p => if p.id = p2.id then p2 else p)

/-- `Post.deleteOne({_id: postId})`. -/
def deletePostById (posts : List Post) (pid : String) : List Post :=
  posts.filter (fun p => p.id ≠ pid)

/-- `fs.unlink` of a blob name from the upload directory. -/
def unlinkBlob (blobs : List String) (name : String) : List String :=
  blobs.filter (fun b => b ≠ name)

/-- String field access with mongoose string coercion (`user.password`). -/
def Doc.getStr (d : Doc) (k : String) : String :=
  match d.getField k with
  | some (.str s) => s
  | _ => ""

/-- The responses a handler can produce. -/
inductive Response where
  | redirect (url : String)
  | redirectFlash (url : String) (messages : List String)
  | httpSend (code : Nat) (text : String)
  | sendText (text : String)
  | renderPosts (view : String) (posts : List Post)
  | renderPost (view : String) (post : Post)
deriving DecidableEq, Repr

/-- Ordered store/blob side effects issued by a handler. -/
inductive Effect where
  | findPost (pid : String)
  | savePost (p : Post)
  | deletePost (pid : String)
  | unlink (name : String)
  | findUser (email : String)
  | insertUser (u : UserRec)
deriving DecidableEq, Repr

/-! ### Validation (the `validateEmail` middleware chain) -/

/-- Split a character list at every occurrence of a separator. -/
def splitOnChar (c : Char) : List Char → List (List Char)
  | [] => [[]]
  | x :: xs =>
      match splitOnChar c xs with
      | [] => if x = c then [[], [x]] else [[x]]
      | y :: ys => if x = c then [] :: y :: ys else (x :: y) :: ys

/-- Model of the external validator's email-format check used by
`body('email').isEmail()`: a non-empty local part, a single `@`, and a
non-empty domain containing a dot with no empty dot-separated segment. -/
def isEmailFormat (s : String) : Bool :=
  match splitOnChar '@' s.toList with
  | [localPart, domain] =>
      localPart ≠ [] && domain.contains '.' &&
        (splitOnChar '.' domain).all (fun seg => seg ≠ [])
  | _ => false

/-- The validation messages collected by the `validateEmail` chain, in
declaration order. -/
def validateEmail (email password : String) : List String :=
  (if isEmailFormat email then [] else ["Please enter a valid email address"]) ++
  (if password.length ≥ 6 then [] else ["Password must be atleast 6 letters long"])

/-! ### The passport `LocalStrategy` verify callback -/

/-- Outcome of the strategy callback: `done(null, false, {message})` or
`done(null, user)`. -/
inductive AuthResult where
  | failure (message : String)
  | success (user : UserRec)
deriving DecidableEq, Repr

/-- The `LocalStrategy` verify callback of `app.js`: look the user up by
email; fail with the fixed message when absent; compare the password with
the stored hash via the external `bcrypt.compare` collaborator, failing
with the same fixed message on mismatch; otherwise succeed with the user. -/
def localStrategyVerify (compare : String → String → Bool)
    (users : List UserRec) (email password : String) : AuthResult :=
  match findUserByEmail users email with
  | none => .failure "Incorrect email or password"
  | some user =>
      if compare password (user.doc.getStr "password") then .success user
      else .failure "Incorrect email or password"

/-! ### Middleware -/

/-- `storeOriginalUrl`: for an unauthenticated request, record the request
url in the `redUrl` cookie; otherwise leave the cookies alone. -/
def storeOriginalUrl (authenticated : Bool) (reqUrl : String)
    (redUrl : Option String) : Option String :=
  if authenticated then redUrl else some reqUrl

/-- `isLoggedin`: pass an authenticated request through, otherwise respond
with a redirect to `/login`. -/
def isLoggedin (user : Option UserRec) : Option Response :=
  match user with
  | some _ => none
  | none => some (.redirect "/login")

/-- The middleware prefix of `GET /myposts` (`storeOriginalUrl` then
`isLoggedin`): returns the cookie state after the request plus the gate's
response, `none` meaning the handler itself runs. -/
def mypostsGate (user : Option UserRec) (redUrl : Option String) :
    Option String × Option Response :=
  (storeOriginalUrl user.isSome "/myposts" redUrl, isLoggedin user)

/-- The success continuation of `POST /login`: redirect to the `redUrl`
cookie when present, else to `/dashboard`. -/
def loginSuccessRedirect (redUrl : Option String) : Response :=
  match redUrl with
  | some u => .redirect u
  | none => .redirect "/dashboard"

/-! ### `GET /` — the feed -/

/-- Ascending comparison on creation time (the store's `sort({createdAt: 1})`). -/
def byCreatedAsc (a b : Post) : Bool := a.createdAt ≤ b.createdAt

/-- Descending comparison on creation time (the store's `sort({createdAt: -1})`). -/
def byCreatedDesc (a b : Post) : Bool := b.createdAt ≤ a.createdAt

/-- The `GET /` handler: `sortby=old` renders the posts ascending by
`createdAt`, any other value (or none) descending. -/
def homeHandler (sortby : Option String) (posts : List Post) : Response :=
  if sortby = some "old" then
    .renderPosts "index" (posts.mergeSort byCreatedAsc)
  else
    .renderPosts "index" (posts.mergeSort byCreatedDesc)

/-! ### `POST /signup` -/

/-- The document `new User({email, password: hash, admin: false})` built by
the signup handler: the `admin` property is not a schema path, so mongoose
strips it. -/
def signupUserDoc (email hash : String) : Doc :=
  mkUser [("email", .str email), ("password", .str hash), ("admin", .bool false)]

/-- The `POST /signup` handler (after the `isLoggedOut` gate).  The source
queries for an existing user first, then branches on validation errors,
then on the existence check; on success it hashes the password, persists
the new user (with an `admin: false` property the schema strips), and
redirects per the `redUrl` cookie.  `hashFn` is the external
`bcrypt.hash` collaborator and `freshId` the store-assigned id. -/
def signupHandler (hashFn : String → String) (freshId : String)
    (store : Store) (redUrl : Option String) (email password : String) :
    Response × Store :=
  let existingUser := findUserByEmail store.users email
  let errors := validateEmail email password
  if errors ≠ [] then
    (.redirectFlash "/signup" errors, store)
  else
    match existingUser with
    | some _ => (.sendText "Email is already in use.", store)
    | none =>
        let hash := hashFn password
        let newUser : UserRec := ⟨freshId, signupUserDoc email hash⟩
        let store2 := { store with users := store.users ++ [newUser] }
        (loginSuccessRedirect redUrl, store2)

/-! ### `GET /myposts` -/

/-- The `GET /myposts` handler body: on a successful store lookup render
the user's posts; on a store failure the catch block only logs — no
response is sent (`none`). -/
def mypostsHandler (lookup : Except String (List Post)) : Option Response :=
  match lookup with
  | .ok posts => some (.renderPosts "dirupload" posts)
  | .error _ => none

/-! ### `GET /delete/:id` -/

/-- The `isAdmin` property consulted by the delete handler
(`req.user.isAdmin`), with JavaScript truthiness. -/
def isAdminFlag (u : UserRec) : Bool := truthy (u.doc.getField "isAdmin")

/-- The `GET /delete/:id` handler body (it runs behind `isLoggedin`, so the
caller is present): 404 when the post is absent; 403 when the caller is
neither the author nor admin-flagged; otherwise unlink the blob, delete
the record, and redirect to `/myposts`. -/
def deleteHandler (store : Store) (user : UserRec) (postId : String) :
    Response × Store × List Effect :=
  match findPostById store.posts postId with
  | none => (.httpSend 404 "Post not found", store, [.findPost postId])
  | some post =>
      if post.authorId ≠ user.id && !isAdminFlag user then
        (.httpSend 403 "You are not authorized to delete this post", store, [.findPost postId])
      else
        (.redirect "/myposts",
         { store with
             posts := deletePostById store.posts postId,
             blobs := unlinkBlob store.blobs post.filename },
         [.findPost postId, .unlink post.filename, .deletePost postId])

/-- The full `GET /delete/:id` route: the `isLoggedin` gate then the
handler. -/
def deleteRoute (store : Store) (user : Option UserRec) (postId : String) :
    Response × Store × List Effect :=
  match user with
  | none => (.redirect "/login", store, [])
  | some u => deleteHandler store u postId

/-! ### `GET /posts/:id` -/

/-- `mongoose.Types.ObjectId.isValid` on a string argument: a 24-character
hexadecimal string, or any 12-character string (interpretable as 12 raw
bytes). -/
def isValidObjectId (s : String) : Bool :=
  s.length = 12 || (s.length = 24 && s.toList.all (fun c => c.isDigit || ("abcdefABCDEF".toList.contains c)))

/-- The `GET /posts/:id` handler: reject a malformed id with 400 before any
lookup; 404 when no post matches; otherwise render the post. -/
def postsIdHandler (posts : List Post) (pid : String) :
    Response × List Effect :=
  if !isValidObjectId pid then
    (.httpSend 400 "Invalid post ID", [])
  else
    match findPostById posts pid with
    | none => (.httpSend 404 "Post not found", [.findPost pid])
    | some post => (.renderPost "post" post, [.findPost pid])

/-! ### `POST /post/edit/:postId` -/

/-- The `POST /post/edit/:postId` handler body.  NOTE: in the source this
route has no `isLoggedin` gate — `req.user` may be absent.  The handler
fetches the post (404 when absent) and then evaluates
`post.authorId.toString() !== req.user._id.toString()`; with no user this
throws a `TypeError` that the surrounding `try` converts to a 500, after
the post has already been read.  On the authorized path it overwrites
title and body, replaces the filename only when a file was uploaded,
saves, and only then — and only when a file was uploaded and the old
filename was truthy — unlinks the old blob, finally redirecting back to
the edit page. -/
def postEditSubmit (store : Store) (user : Option UserRec) (postId : String)
    (title bodyText : String) (newFile : Option String) :
    Response × Store × List Effect :=
  match findPostById store.posts postId with
  | none => (.httpSend 404 "Post not found", store, [.findPost postId])
  | some post =>
      match user with
      | none => (.httpSend 500 "Internal Server Error", store, [.findPost postId])
      | some u =>
          if post.authorId ≠ u.id then
            (.httpSend 403 "You are not authorized to edit this post", store, [.findPost postId])
          else
            let oldFilename := post.filename
            let post1 := { post with title := title, body := bodyText }
            let post2 :=
              match newFile with
              | some f => { post1 with filename := f }
              | none => post1
            let saved := { store with posts := savePostById store.posts post2 }
            match newFile with
            | some _ =>
                if oldFilename ≠ "" then
                  (.redirect ("/post/edit/" ++ postId),
                   { saved with blobs := unlinkBlob saved.blobs oldFilename },
                   [.findPost postId, .savePost post2, .unlink oldFilename])
                else
                  (.redirect ("/post/edit/" ++ postId), saved,
                   [.findPost postId, .savePost post2])
            | none =>
                (.redirect ("/post/edit/" ++ postId), saved,
                 [.findPost postId, .savePost post2])

/-- The full `POST /post/edit/:postId` route: the multer middleware
(`upload.single('newImage')`) stores the uploaded blob before the handler
runs; there is no authentication gate. -/
def postEditRoute (store : Store) (user : Option UserRec) (postId : String)
    (title bodyText : String) (newFile : Option String) :
    Response × Store × List Effect :=
  let store1 :=
    match newFile with
    | some f => { store with blobs := f :: store.blobs }
    | none => store
  postEditSubmit store1 user postId title bodyText newFile

/-! ### Concrete data for witnesses -/

/-- A concrete model of the external `bcrypt.hash` collaborator, used only
to instantiate witnesses. -/
def bcryptModelHash (p : String) : String := "h:" ++ p

/-- The matching model of `bcrypt.compare`: the hash of the candidate
password equals the stored hash. -/
def bcryptModelCompare (p h : String) : Bool := h = bcryptModelHash p

def user1 : UserRec := ⟨"a1", signupUserDoc "alice@d.cc" (bcryptModelHash "pw0123")⟩

def user2 : UserRec := ⟨"u2", signupUserDoc "bob@d.cc" (bcryptModelHash "pw4567")⟩

def post0 : Post := ⟨"p1", "a title", "f.png", "a body", "a1", "alice", 5⟩

def store0 : Store := ⟨[user1, user2], [post0], ["f.png"]⟩

/-! ### Helper lemmas -/

lemma findPostById_eq_some {posts : List Post} {pid : String} {post : Post}
    (h : findPostById posts pid = some post) : post.id = pid := by
  have := List.find?_some h
  simpa using this

lemma findPostById_savePostById (posts : List Post) (pid : String)
    (post p2 : Post) (h : findPostById posts pid = some post)
    (hid : p2.id = post.id) :
    findPostById (savePostById posts p2) pid = some p2 := by
  have hpid : post.id = pid := findPostById_eq_some h
  have h2pid : p2.id = pid := by rw [hid, hpid]
  induction posts with
  | nil => simp [findPostById] at h
  | cons a l ih =>
      by_cases ha : a.id = pid
      · have ha2 : a.id = p2.id := by rw [ha, h2pid]
        simp [savePostById, findPostById, List.find?_cons, ha2, h2pid]
      · have h' : findPostById l pid = some post := by
          simpa [findPostById, List.find?_cons, ha] using h
        have hne : ¬a.id = p2.id := fun hc => ha (hc.trans h2pid)
        have hrec := ih h'
        simpa [savePostById, findPostById, List.find?_cons, hne, ha]
          using hrec

lemma deleteHandler_notFound (store : Store) (user : UserRec)
    (postId : String) (h : findPostById store.posts postId = none) :
    deleteHandler store user postId =
      (.httpSend 404 "Post not found", store, [.findPost postId]) := by
  simp [deleteHandler, h]

lemma deleteHandler_forbidden (store : Store) (user : UserRec)
    (postId : String) (post : Post)
    (hp : findPostById store.posts postId = some post)
    (hne : post.authorId ≠ user.id) (hadmin : isAdminFlag user = false) :
    deleteHandler store user postId =
      (.httpSend 403 "You are not authorized to delete this post", store,
        [.findPost postId]) := by
  simp [deleteHandler, hp, hne, hadmin]

/-! ### Claim theorems -/

/-- C3: the `LocalStrategy` verify callback fails with the identical
user-facing message whether no user carries the given email or a user
exists but the password hash comparison fails, so the two failure causes
are indistinguishable; with credentials accepted by the hash comparison it
succeeds with the stored user. -/
theorem c3_login_failures_indistinguishable
    (compare : String → String → Bool)
    (users1 : List UserRec) (e1 p1 : String)
    (users2 : List UserRec) (e2 p2 : String) (u : UserRec)
    (h1 : findUserByEmail users1 e1 = none)
    (h2 : findUserByEmail users2 e2 = some u)
    (h3 : compare p2 (u.doc.getStr "password") = false) :
    localStrategyVerify compare users1 e1 p1 =
      localStrategyVerify compare users2 e2 p2
    ∧ localStrategyVerify compare users1 e1 p1 =
        .failure "Incorrect email or password"
    ∧ ∀ users e p v, findUserByEmail users e = some v →
        compare p (v.doc.getStr "password") = true →
        localStrategyVerify compare users e p = .success v := by
  refine ⟨?_, ?_, ?_⟩
  · simp [localStrategyVerify, h1, h2, h3]
  · simp [localStrategyVerify, h1]
  · intro users e p v hv hcmp
    simp [localStrategyVerify, hv, hcmp]

theorem c3_witness :
    findUserByEmail [] "ghost@d.cc" = none
    ∧ findUserByEmail [user1] "alice@d.cc" = some user1
    ∧ bcryptModelCompare "wrong" (user1.doc.getStr "password") = false
    ∧ localStrategyVerify bcryptModelCompare [] "ghost@d.cc" "pw" =
        localStrategyVerify bcryptModelCompare [user1] "alice@d.cc" "wrong"
    ∧ localStrategyVerify bcryptModelCompare [user1] "alice@d.cc" "pw0123" =
        .success user1 := by
  have h := c3_login_failures_indistinguishable bcryptModelCompare
    [] "ghost@d.cc" "pw" [user1] "alice@d.cc" "wrong" user1
    (by decide) (by decide) (by decide)
  exact ⟨by decide, by decide, by decide, h.1,
    h.2.2 [user1] "alice@d.cc" "pw0123" user1 (by decide) (by decide)⟩

/-- C8: an unauthenticated `GET /myposts` is answered by a redirect to
`/login` with the `redUrl` cookie set to `/myposts`; the `POST /login`
success continuation redirects to the recorded path when the cookie is
present and to `/dashboard` when it is absent. -/
theorem c8_myposts_redirect_replay (redUrl : Option String) :
    mypostsGate none redUrl = (some "/myposts", some (.redirect "/login"))
    ∧ loginSuccessRedirect (some "/myposts") = .redirect "/myposts"
    ∧ loginSuccessRedirect none = .redirect "/dashboard" :=
  ⟨rfl, rfl, rfl⟩

/-- C9: contrary to the claim, a store lookup failure on `GET /myposts` is
caught by a handler that only logs — no response at all is produced, rather
than a generic server error response. -/
theorem c9_myposts_store_failure_no_response :
    mypostsHandler (.error "store lookup failed") = none
    ∧ ∀ text code, mypostsHandler (.error "store lookup failed") ≠
        some (.httpSend code text) := by
  exact ⟨rfl, by intro text code h; exact Option.noConfusion h⟩

/-- C2: for an authenticated caller who is neither the post's author nor
admin-flagged, `GET /delete/:id` answers 403 and leaves the store — posts
and blobs — untouched; when the post is absent it answers 404 and likewise
deletes nothing. -/
theorem c2_delete_forbidden_preserves_store (store : Store) (user : UserRec)
    (postId : String) :
    (∀ post, findPostById store.posts postId = some post →
      post.authorId ≠ user.id → isAdminFlag user = false →
      deleteRoute store (some user) postId =
        (.httpSend 403 "You are not authorized to delete this post", store,
          [.findPost postId]))
    ∧ (findPostById store.posts postId = none →
        deleteRoute store (some user) postId =
          (.httpSend 404 "Post not found", store, [.findPost postId])) := by
  constructor
  · intro post hp hne hadmin
    simpa [deleteRoute] using
      deleteHandler_forbidden store user postId post hp hne hadmin
  · intro h
    simpa [deleteRoute] using deleteHandler_notFound store user postId h

theorem c2_witness :
    findPostById store0.posts "p1" = some post0
    ∧ post0.authorId ≠ user2.id
    ∧ isAdminFlag user2 = false
    ∧ deleteRoute store0 (some user2) "p1" =
        (.httpSend 403 "You are not authorized to delete this post", store0,
          [.findPost "p1"])
    ∧ findPostById store0.posts "p9" = none
    ∧ deleteRoute store0 (some user2) "p9" =
        (.httpSend 404 "Post not found", store0, [.findPost "p9"]) :=
  ⟨by decide, by decide, by decide,
   (c2_delete_forbidden_preserves_store store0 user2 "p1").1 post0
     (by decide) (by decide) (by decide),
   by decide,
   (c2_delete_forbidden_preserves_store store0 user2 "p9").2 (by decide)⟩

/-- C10: the user document persisted by the signup handler carries only the
schema fields `email` and `password` — the `admin: false` property is
stripped and no `isAdmin` field exists — so `req.user.isAdmin` is falsy for
every signup-created user and the delete handler's admin bypass is
unreachable for them: as a non-author such a user always receives 403. -/
theorem c10_signup_user_never_admin (email hash : String) (uid : String)
    (store : Store) (postId : String) (post : Post)
    (hp : findPostById store.posts postId = some post)
    (hne : post.authorId ≠ uid) :
    signupUserDoc email hash = [("email", .str email), ("password", .str hash)]
    ∧ isAdminFlag ⟨uid, signupUserDoc email hash⟩ = false
    ∧ deleteRoute store (some ⟨uid, signupUserDoc email hash⟩) postId =
        (.httpSend 403 "You are not authorized to delete this post", store,
          [.findPost postId]) := by
  refine ⟨rfl, rfl, ?_⟩
  simpa [deleteRoute] using
    deleteHandler_forbidden store ⟨uid, signupUserDoc email hash⟩ postId post
      hp hne rfl

theorem c10_witness :
    findPostById store0.posts "p1" = some post0
    ∧ post0.authorId ≠ "u7"
    ∧ deleteRoute store0 (some ⟨"u7", signupUserDoc "eve@d.cc" "h"⟩) "p1" =
        (.httpSend 403 "You are not authorized to delete this post", store0,
          [.findPost "p1"]) :=
  ⟨by decide, by decide,
   (c10_signup_user_never_admin "eve@d.cc" "h" "u7" store0 "p1" post0
     (by decide) (by decide)).2.2⟩

/-- C7: `GET /posts/:id` answers 400 for a malformed id with no store
lookup issued at all, and 404 for a well-formed id matching no post. -/
theorem c7_posts_id_validation (posts : List Post) (pid : String) :
    (isValidObjectId pid = false →
      postsIdHandler posts pid = (.httpSend 400 "Invalid post ID", []))
    ∧ (isValidObjectId pid = true → findPostById posts pid = none →
        postsIdHandler posts pid =
          (.httpSend 404 "Post not found", [.findPost pid])) := by
  constructor
  · intro h; simp [postsIdHandler, h]
  · intro h hnone; simp [postsIdHandler, h, hnone]

theorem c7_witness :
    isValidObjectId "zz" = false
    ∧ postsIdHandler store0.posts "zz" = (.httpSend 400 "Invalid post ID", [])
    ∧ isValidObjectId "0123456789abcdef01234567" = true
    ∧ findPostById store0.posts "0123456789abcdef01234567" = none
    ∧ postsIdHandler store0.posts "0123456789abcdef01234567" =
        (.httpSend 404 "Post not found", [.findPost "0123456789abcdef01234567"]) :=
  ⟨by decide,
   (c7_posts_id_validation store0.posts "zz").1 (by decide),
   by decide, by decide,
   (c7_posts_id_validation store0.posts "0123456789abcdef01234567").2
     (by decide) (by decide)⟩

/-- C1: contrary to the claim, the `POST /post/edit/:postId` route carries
no authentication gate.  An unauthenticated submission for an existing post
is not redirected to login: the post is read from the store (the lookup
effect is issued) and the handler answers 500 — the `TypeError` from
`req.user._id` caught by its `try` — while an unauthenticated submission
for a missing post answers 404, revealing post existence.  The post itself
is not modified. -/
theorem c1_post_edit_submit_unauthenticated :
    postEditRoute store0 none "p1" "t2" "b2" none =
      (.httpSend 500 "Internal Server Error", store0, [.findPost "p1"])
    ∧ (Response.httpSend 500 "Internal Server Error") ≠ .redirect "/login"
    ∧ postEditRoute store0 none "p9" "t2" "b2" none =
        (.httpSend 404 "Post not found", store0, [.findPost "p9"]) := by
  decide

/-- C6: `GET /` renders all stored posts — a permutation of the collection —
ascending by `createdAt` when `sortby=old`, and descending for any other
value of the parameter or when it is absent. -/
theorem c6_feed_ordering (sortby : Option String) (posts : List Post) :
    (sortby = some "old" →
      ∃ sorted, homeHandler sortby posts = .renderPosts "index" sorted
        ∧ sorted.Perm posts
        ∧ sorted.Pairwise (fun a b => a.createdAt ≤ b.createdAt))
    ∧ (sortby ≠ some "old" →
      ∃ sorted, homeHandler sortby posts = .renderPosts "index" sorted
        ∧ sorted.Perm posts
        ∧ sorted.Pairwise (fun a b => b.createdAt ≤ a.createdAt)) := by
  constructor
  · intro h
    refine ⟨posts.mergeSort byCreatedAsc, by simp [homeHandler, h],
      List.mergeSort_perm posts _, ?_⟩
    have htrans : ∀ a b c : Post, byCreatedAsc a b = true →
        byCreatedAsc b c = true → byCreatedAsc a c = true := by
      intro a b c hab hbc
      simp only [byCreatedAsc, decide_eq_true_eq] at hab hbc ⊢
      omega
    have htotal : ∀ a b : Post, (byCreatedAsc a b || byCreatedAsc b a) = true := by
      intro a b
      simp only [byCreatedAsc, Bool.or_eq_true, decide_eq_true_eq]
      omega
    exact (List.sorted_mergeSort htrans htotal posts).imp
      (fun hab => by simpa [byCreatedAsc] using hab)
  · intro h
    refine ⟨posts.mergeSort byCreatedDesc, by simp [homeHandler, h],
      List.mergeSort_perm posts _, ?_⟩
    have htrans : ∀ a b c : Post, byCreatedDesc a b = true →
        byCreatedDesc b c = true → byCreatedDesc a c = true := by
      intro a b c hab hbc
      simp only [byCreatedDesc, decide_eq_true_eq] at hab hbc ⊢
      omega
    have htotal : ∀ a b : Post, (byCreatedDesc a b || byCreatedDesc b a) = true := by
      intro a b
      simp only [byCreatedDesc, Bool.or_eq_true, decide_eq_true_eq]
      omega
    exact (List.sorted_mergeSort htrans htotal posts).imp
      (fun hab => by simpa [byCreatedDesc] using hab)

def feedPosts : List Post :=
  [⟨"q3", "t3", "f3", "b3", "a1", "alice", 3⟩,
   ⟨"q1", "t1", "f1", "b1", "a1", "alice", 1⟩,
   ⟨"q2", "t2", "f2", "b2", "a1", "alice", 2⟩]

theorem c6_witness :
    (∃ sorted, homeHandler (some "old") feedPosts = .renderPosts "index" sorted
      ∧ sorted.Perm feedPosts
      ∧ sorted.Pairwise (fun a b => a.createdAt ≤ b.createdAt))
    ∧ (∃ sorted, homeHandler none feedPosts = .renderPosts "index" sorted
      ∧ sorted.Perm feedPosts
      ∧ sorted.Pairwise (fun a b => b.createdAt ≤ a.createdAt)) :=
  ⟨(c6_feed_ordering (some "old") feedPosts).1 rfl,
   (c6_feed_ordering none feedPosts).2 (by decide)⟩

/-- C4 counterexample: a signup request whose email belongs to the stored
user `user1` but whose password is five characters long is answered with
the validation redirect, not the plain duplicate-email failure message the
claim asserts. -/
theorem c4_counterexample_duplicate_email_short_password :
    findUserByEmail store0.users "alice@d.cc" = some user1
    ∧ (signupHandler bcryptModelHash "u9" store0 none "alice@d.cc" "12345").1 ≠
        .sendText "Email is already in use."
    ∧ (signupHandler bcryptModelHash "u9" store0 none "alice@d.cc" "12345").1 =
        .redirectFlash "/signup" ["Password must be atleast 6 letters long"] := by
  decide

/-- C4 (amended): a signup whose email equals a stored user's email never
creates a record — the user collection is returned unchanged; when the
input also passes validation, the response is the plain failure message
`Email is already in use.`, and when validation fails the response is the
validation redirect instead. -/
theorem c4_signup_duplicate_email_no_creation (hashFn : String → String)
    (freshId : String) (store : Store) (redUrl : Option String)
    (email password : String) (u : UserRec)
    (hu : findUserByEmail store.users email = some u) :
    (signupHandler hashFn freshId store redUrl email password).2 = store
    ∧ (validateEmail email password = [] →
        (signupHandler hashFn freshId store redUrl email password).1 =
          .sendText "Email is already in use.")
    ∧ (validateEmail email password ≠ [] →
        (signupHandler hashFn freshId store redUrl email password).1 =
          .redirectFlash "/signup" (validateEmail email password)) := by
  by_cases he : validateEmail email password = []
  · exact ⟨by simp [signupHandler, he, hu], fun _ => by simp [signupHandler, he, hu],
      fun hne => absurd he hne⟩
  · exact ⟨by simp [signupHandler, he], fun hc => absurd hc he,
      fun _ => by simp [signupHandler, he]⟩

theorem c4_witness :
    findUserByEmail store0.users "alice@d.cc" = some user1
    ∧ validateEmail "alice@d.cc" "123456" = []
    ∧ (signupHandler bcryptModelHash "u9" store0 none "alice@d.cc" "123456").2 =
        store0
    ∧ (signupHandler bcryptModelHash "u9" store0 none "alice@d.cc" "123456").1 =
        .sendText "Email is already in use." :=
  ⟨by decide, by decide,
   (c4_signup_duplicate_email_no_creation bcryptModelHash "u9" store0 none
     "alice@d.cc" "123456" user1 (by decide)).1,
   (c4_signup_duplicate_email_no_creation bcryptModelHash "u9" store0 none
     "alice@d.cc" "123456" user1 (by decide)).2.1 (by decide)⟩

/-- C5: a successful edit submission by the post's author updates title and
body, keeps the filename when no new image was uploaded and replaces it by
the uploaded blob's name otherwise, never changes `createdAt`, `username`
or `authorId`, and issues the old blob's unlink strictly after the save
effect — and only when a new file was uploaded and an old filename existed;
the old blob is then gone from the blob store. -/
theorem c5_author_edit_frame (store : Store) (u : UserRec)
    (postId title bodyText : String) (newFile : Option String) (post : Post)
    (hp : findPostById store.posts postId = some post)
    (hauth : post.authorId = u.id) :
    ∃ p2 : Post,
      findPostById
          (postEditRoute store (some u) postId title bodyText newFile).2.1.posts
          postId = some p2
      ∧ p2.title = title
      ∧ p2.body = bodyText
      ∧ p2.createdAt = post.createdAt
      ∧ p2.username = post.username
      ∧ p2.authorId = post.authorId
      ∧ (newFile = none → p2.filename = post.filename)
      ∧ (∀ f, newFile = some f → p2.filename = f)
      ∧ (postEditRoute store (some u) postId title bodyText newFile).1 =
          .redirect ("/post/edit/" ++ postId)
      ∧ (postEditRoute store (some u) postId title bodyText newFile).2.2 =
          (if newFile.isSome ∧ post.filename ≠ "" then
            [.findPost postId, .savePost p2, .unlink post.filename]
          else [.findPost postId, .savePost p2])
      ∧ (newFile.isSome → post.filename ≠ "" →
          post.filename ∉
            (postEditRoute store (some u) postId title bodyText newFile).2.1.blobs) := by
  have hnot : ¬post.authorId ≠ u.id := fun hc => hc hauth
  cases newFile with
  | none =>
      refine ⟨{ post with title := title, body := bodyText }, ?_, rfl, rfl,
        rfl, rfl, rfl, fun _ => rfl, fun f hf => Option.noConfusion hf,
        ?_, ?_, fun hs => absurd hs (by simp)⟩
      · have : (postEditRoute store (some u) postId title bodyText none).2.1.posts =
            savePostById store.posts { post with title := title, body := bodyText } := by
          simp [postEditRoute, postEditSubmit, hp, hnot]
        rw [this]
        exact findPostById_savePostById store.posts postId post _ hp rfl
      · simp [postEditRoute, postEditSubmit, hp, hnot]
      · simp [postEditRoute, postEditSubmit, hp, hnot]
  | some f =>
      refine ⟨{ post with title := title, body := bodyText, filename := f },
        ?_, rfl, rfl, rfl, rfl, rfl, fun hf => Option.noConfusion hf,
        fun g hg => by cases hg; rfl, ?_, ?_, ?_⟩
      · have : (postEditRoute store (some u) postId title bodyText (some f)).2.1.posts =
            savePostById store.posts
              { post with title := title, body := bodyText, filename := f } := by
          by_cases hfn : post.filename = ""
          · simp [postEditRoute, postEditSubmit, hp, hnot, hfn]
          · simp [postEditRoute, postEditSubmit, hp, hnot, hfn]
        rw [this]
        exact findPostById_savePostById store.posts postId post _ hp rfl
      · by_cases hfn : post.filename = ""
        · simp [postEditRoute, postEditSubmit, hp, hnot, hfn]
        · simp [postEditRoute, postEditSubmit, hp, hnot, hfn]
      · by_cases hfn : post.filename = ""
        · simp [postEditRoute, postEditSubmit, hp, hnot, hfn]
        · simp [postEditRoute, postEditSubmit, hp, hnot, hfn]
      · intro _ hfn
        simp [postEditRoute, postEditSubmit, hp, hnot, hfn, unlinkBlob]

theorem c5_witness :
    findPostById store0.posts "p1" = some post0
    ∧ post0.authorId = user1.id
    ∧ (∃ p2 : Post,
        findPostById
            (postEditRoute store0 (some user1) "p1" "new title" "new body"
              (some "g.png")).2.1.posts "p1" = some p2
        ∧ p2.title = "new title"
        ∧ p2.body = "new body"
        ∧ p2.createdAt = post0.createdAt
        ∧ p2.username = post0.username
        ∧ p2.authorId = post0.authorId
        ∧ (Option.some "g.png" = none → p2.filename = post0.filename)
        ∧ (∀ f, Option.some "g.png" = some f → p2.filename = f)
        ∧ (postEditRoute store0 (some user1) "p1" "new title" "new body"
            (some "g.png")).1 = .redirect ("/post/edit/" ++ "p1")
        ∧ (postEditRoute store0 (some user1) "p1" "new title" "new body"
            (some "g.png")).2.2 =
            (if (Option.some "g.png").isSome ∧ post0.filename ≠ "" then
              [.findPost "p1", .savePost p2, .unlink post0.filename]
            else [.findPost "p1", .savePost p2])
        ∧ ((Option.some "g.png").isSome → post0.filename ≠ "" →
            post0.filename ∉
              (postEditRoute store0 (some user1) "p1" "new title" "new body"
                (some "g.png")).2.1.blobs)) :=
  ⟨by decide, by decide,
   c5_author_edit_frame store0 user1 "p1" "new title" "new body"
     (some "g.png") post0 (by decide) (by decide)⟩

end MananWebsite
